import Mathlib

/-!
Verification development for the `cobyla-argmin` crate: an adapter that plugs
Powell's COBYLA derivative-free constrained optimizer into the `argmin`
iterative-optimization framework.

Real numbers of the program (`f64`) are embedded as `ℚ` so that every
definition is executable and every comparison decidable; the properties
verified here are order-theoretic and structural, not about floating-point
rounding.

The crate's `lib.rs` declares modules `cobyla`, `cobyla_solver` and
`cobyla_state` whose sources are not part of the code under verification;
definitions for those parts are modelled from the specification and carry a
doc comment starting with `Modelled from the spec:`.
-/

/-- Failed termination status of the optimization process, from `lib.rs`
(`enum FailStatus`). -/
inductive FailStatus where
  | Failure
  | InvalidArgs
  | OutOfMemory
  | RoundoffLimited
  | ForcedStop
  | UnexpectedError
deriving DecidableEq, Repr

/-- Successful termination status of the optimization process, from `lib.rs`
(`enum SuccessStatus`). -/
inductive SuccessStatus where
  | Success
  | StopValReached
  | FtolReached
  | XtolReached
  | MaxEvalReached
  | MaxTimeReached
deriving DecidableEq, Repr

/-- A terminal status is either a failure or a success reason. -/
abbrev TermStatus := FailStatus ⊕ SuccessStatus

/-- Tolerances used as termination criteria, from `lib.rs` (`struct StopTols`).
Each condition is disabled if its value is not strictly positive. -/
structure StopTols where
  ftol_rel : ℚ
  ftol_abs : ℚ
  xtol_rel : ℚ
  xtol_abs : List ℚ
deriving DecidableEq, Repr

/-- The `#[derive(Default)]` instance of `StopTols`: every scalar field is
zero and `xtol_abs` is the empty vector. -/
def StopTols.default : StopTols :=
  { ftol_rel := 0, ftol_abs := 0, xtol_rel := 0, xtol_abs := [] }

/-- Initial change of x (the `rhobeg` argument of Powell's algorithm), from
`lib.rs` (`enum RhoBeg`): either one value for all components, or a
per-component vector. -/
inductive RhoBeg where
  | All (v : ℚ)
  | Set (v : List ℚ)
deriving DecidableEq, Repr

/-- Modelled from the spec: the numerical slack of the feasibility gate
(the source of module `cobyla_state` is missing). The spec directs to treat
feasibility as a hard nonnegativity gate with a small slack, e.g. `1e-8`. -/
def cstr_eps : ℚ := 1 / 100000000

/-- Modelled from the spec: a cost vector (element 0 objective, elements 1..
constraint values) is feasible when all constraint components are
nonnegative within the numerical slack `cstr_eps`. -/
def feasible (cost : List ℚ) : Bool :=
  cost.tail.all fun c => decide (-cstr_eps ≤ c)

/-- Modelled from the spec: the mutable iteration record kept by the missing
`cobyla_state` module — current parameter vector and cost, best-so-far
parameter vector and cost (absent until a first candidate is recorded),
iteration counter, and a terminal status once finished. -/
structure CobylaState where
  param : List ℚ
  cost : Option (List ℚ)
  best_param : List ℚ
  best_cost : Option (List ℚ)
  iter : ℕ
  status : Option TermStatus
deriving DecidableEq, Repr

/-- Modelled from the spec: `CobylaState::new(initial_params)` — iteration 0,
current = best = initial parameters, cost undefined until first evaluation,
no status. -/
def CobylaState.new (x0 : List ℚ) : CobylaState :=
  { param := x0, cost := none, best_param := x0, best_cost := none,
    iter := 0, status := none }

/-- Modelled from the spec: a candidate cost improves on the recorded best
when there is no best yet, or when its objective (element 0) is strictly
lower than the best objective. -/
def improves (best : Option (List ℚ)) (cost : List ℚ) : Bool :=
  match best with
  | none => true
  | some b => decide (cost.getD 0 0 < b.getD 0 0)

/-- Modelled from the spec: `CobylaState::update(params, cost)` of the missing
`cobyla_state` module — records the candidate as current, replaces best iff
the objective strictly improves and the candidate is feasible, and increments
the iteration counter by one. -/
def CobylaState.update (s : CobylaState) (params cost : List ℚ) : CobylaState :=
  if improves s.best_cost cost && feasible cost then
    { s with param := params, cost := some cost,
             best_param := params, best_cost := some cost, iter := s.iter + 1 }
  else
    { s with param := params, cost := some cost, iter := s.iter + 1 }

/-- Modelled from the spec: `CobylaState::finish(status)` of the missing
`cobyla_state` module — attaches a terminal status, and signals a logic
error if the state is already finished. -/
def CobylaState.finish (s : CobylaState) (t : TermStatus) :
    Except String CobylaState :=
  match s.status with
  | some _ => .error "already finished"
  | none => .ok { s with status := some t }

/-- The best objective value recorded in a state, `⊤` when no candidate has
been recorded as best yet. -/
def bestObjW (s : CobylaState) : WithTop ℚ :=
  match s.best_cost with
  | none => ⊤
  | some b => (b.getD 0 0 : ℚ)

/-- Modelled from the spec: the tolerance-based early-stopping decision of
the missing `cobyla` module. Per the doc comment on `StopTols`, each
condition is disabled unless its value is strictly positive (for `xtol_abs`,
unless the vector is set, i.e. non-empty); an enabled condition triggers when
the corresponding change falls within the tolerance. -/
def tolTriggered (t : StopTols) (fprev fnew : ℚ) (xprev xnew : List ℚ) : Bool :=
  (decide (0 < t.ftol_rel) && decide (|fnew - fprev| ≤ t.ftol_rel * |fnew|)) ||
  (decide (0 < t.ftol_abs) && decide (|fnew - fprev| ≤ t.ftol_abs)) ||
  (decide (0 < t.xtol_rel) &&
    (List.zip xprev xnew).all fun pr => decide (|pr.2 - pr.1| ≤ t.xtol_rel * |pr.2|)) ||
  (!t.xtol_abs.isEmpty &&
    (List.zip (List.zip xprev xnew) t.xtol_abs).all fun pr =>
      decide (|pr.1.2 - pr.1.1| ≤ pr.2))

/-- Modelled from the spec: the integer status codes of the external COBYLA
routine, following the NLopt-style convention the status taxonomy mirrors;
the translation table lives in the missing `cobyla_solver` module. Every
recognized code maps to its taxonomy member and any other code falls through
to `FailStatus::UnexpectedError`. -/
def statusFromCode (c : ℤ) : TermStatus :=
  if c = -1 then .inl .Failure
  else if c = -2 then .inl .InvalidArgs
  else if c = -3 then .inl .OutOfMemory
  else if c = -4 then .inl .RoundoffLimited
  else if c = -5 then .inl .ForcedStop
  else if c = 1 then .inr .Success
  else if c = 2 then .inr .StopValReached
  else if c = 3 then .inr .FtolReached
  else if c = 4 then .inr .XtolReached
  else if c = 5 then .inr .MaxEvalReached
  else if c = 6 then .inr .MaxTimeReached
  else .inl .UnexpectedError

/-- The raw codes recognized by `statusFromCode`. -/
def knownCodes : List ℤ := [-1, -2, -3, -4, -5, 1, 2, 3, 4, 5, 6]

/-- Modelled from the spec: the expansion of a `RhoBeg` configuration to a
per-dimension initial-step vector, performed by the missing `cobyla_solver`
module. `All v` expands to a uniform vector of length `n`; `Set vec` is used
as-is. -/
def rhoBegVec (n : ℕ) : RhoBeg → List ℚ
  | .All v => List.replicate n v
  | .Set v => v

/-- Modelled from the spec: a `RhoBeg::Set` vector must match the parameter
dimension; `RhoBeg::All` always fits. -/
def rhoBegOk (n : ℕ) : RhoBeg → Bool
  | .All _ => true
  | .Set v => v.length == n

/-- Modelled from the spec: a set (non-empty) `xtol_abs` vector must match
the parameter dimension. -/
def xtolAbsOk (n : ℕ) (t : StopTols) : Bool :=
  t.xtol_abs.isEmpty || (t.xtol_abs.length == n)

/-- Result reported by one run of the external COBYLA routine: final
parameter vector, final cost vector, raw status code, number of times the
objective/constraint callback was invoked, and the sequence of evaluated
points. -/
structure ExternOutcome where
  x : List ℚ
  cost : List ℚ
  code : ℤ
  nevals : ℕ
  trace : List (List ℚ)
deriving DecidableEq, Repr

/-- The external COBYLA routine as an opaque capability: it receives the
objective/constraint callback, the start point, the expanded per-dimension
initial-step vector, and the stopping tolerances. -/
abbrev ExternEngine :=
  (List ℚ → List ℚ) → List ℚ → List ℚ → StopTols → ExternOutcome

/-- Modelled from the spec: `solve_step` of the missing `cobyla_solver`
module. Dimension mismatches against `RhoBeg::Set` or a set `xtol_abs` are
detected eagerly and reported as `FailStatus::InvalidArgs` with zero callback
invocations; otherwise the external routine runs once, its raw code is
translated, and the state is advanced by `update` then `finish`. The second
component counts callback invocations. -/
def solve_step (engine : ExternEngine) (f : List ℚ → List ℚ)
    (st : CobylaState) (rb : RhoBeg) (tols : StopTols) :
    Except FailStatus CobylaState × ℕ :=
  let n := st.param.length
  if rhoBegOk n rb && xtolAbsOk n tols then
    let out := engine f st.param (rhoBegVec n rb) tols
    match (st.update out.x out.cost).finish (statusFromCode out.code) with
    | .ok s2 => (.ok s2, out.nevals)
    | .error _ => (.error .UnexpectedError, out.nevals)
  else
    (.error .InvalidArgs, 0)

/-- The five success reasons enumerated by the specification, each mapped to
the `SuccessStatus` variant it names: normal convergence, value-tolerance
reached, step-tolerance reached, iteration-budget exhausted, time-budget
exhausted. -/
def claimedSuccessVariants : List SuccessStatus :=
  [.Success, .FtolReached, .XtolReached, .MaxEvalReached, .MaxTimeReached]

/-- The five failure reasons enumerated by the specification, each mapped to
the `FailStatus` variant it names: invalid arguments, allocation failure,
numerical round-off limitation, external forced stop, unclassified error. -/
def claimedFailVariants : List FailStatus :=
  [.InvalidArgs, .OutOfMemory, .RoundoffLimited, .ForcedStop, .UnexpectedError]

/-- All six variants of `SuccessStatus` as declared in `lib.rs`. -/
def allSuccessVariants : List SuccessStatus :=
  [.Success, .StopValReached, .FtolReached, .XtolReached, .MaxEvalReached,
   .MaxTimeReached]

/-- All six variants of `FailStatus` as declared in `lib.rs`. -/
def allFailVariants : List FailStatus :=
  [.Failure, .InvalidArgs, .OutOfMemory, .RoundoffLimited, .ForcedStop,
   .UnexpectedError]

/-- The paraboloid objective from the test module of `lib.rs` and from
`examples/paraboloid.rs`: `10*(x[0]+1)^2 + x[1]^2`. Out-of-range indexing is
a panic in the source; here `getD` is only ever read under the length bound
of the theorems below. -/
def paraboloid (x : List ℚ) : ℚ :=
  10 * (x.getD 0 0 + 1) ^ 2 + x.getD 1 0 ^ 2

/-- Problem definition for `CobylaSolver`: minimize the paraboloid subject to
`x[0] >= 0` (a field-less marker type, as in the source). -/
structure ParaboloidProblem

/-- `ParaboloidProblem::cost` from the test module of `lib.rs` and from
`examples/paraboloid.rs`: returns `Ok(vec![fx, x[0]])`. -/
def ParaboloidProblem.cost (_p : ParaboloidProblem) (x : List ℚ) :
    Except String (List ℚ) :=
  .ok [paraboloid x, x.getD 0 0]

/-- C2 counterexample: the status enums are not exhausted by the five success
and five failure reasons the claim lists. `SuccessStatus::StopValReached`
(objective reached a target stop value) and the generic `FailStatus::Failure`
are variants outside the claimed reason sets. -/
theorem status_taxonomy_counterexample :
    ¬ ((∀ s : SuccessStatus, s ∈ claimedSuccessVariants) ∧
       (∀ f : FailStatus, f ∈ claimedFailVariants)) := by
  intro h
  exact absurd (h.1 .StopValReached) (by decide)

/-- C2 amended: the taxonomy is a fixed closed set containing the five claimed
success reasons plus `StopValReached`, and the five claimed failure reasons
plus the generic `Failure`; with those two additions the enums contain
exactly these variants (every variant is listed, no reason listed twice). -/
theorem status_taxonomy_amended :
    (∀ s : SuccessStatus, s ∈ allSuccessVariants) ∧ allSuccessVariants.Nodup ∧
    (∀ f : FailStatus, f ∈ allFailVariants) ∧ allFailVariants.Nodup ∧
    claimedSuccessVariants ⊆ allSuccessVariants ∧
    claimedFailVariants ⊆ allFailVariants := by
  refine ⟨fun s => ?_, by decide, fun f => ?_, by decide, by decide, by decide⟩
  · cases s <;> decide
  · cases f <;> decide

/-- One `update` call never increases the recorded best objective. -/
lemma bestObjW_update_le (s : CobylaState) (p c : List ℚ) :
    bestObjW (s.update p c) ≤ bestObjW s := by
  unfold CobylaState.update
  by_cases h : (improves s.best_cost c && feasible c) = true
  · rw [if_pos h]
    cases hb : s.best_cost with
    | none => simp [bestObjW, hb]
    | some b =>
      have himp : improves (some b) c = true := by
        have := (Bool.and_eq_true _ _).mp h
        rw [hb] at this
        exact this.1
      have hlt : c.getD 0 0 < b.getD 0 0 := of_decide_eq_true himp
      simp only [bestObjW, hb]
      exact_mod_cast le_of_lt hlt
  · rw [if_neg h]
    simp [bestObjW]

/-- C3: across any sequence of `update(params, cost)` calls, feasible or not,
the best objective recorded in the state is monotonically non-increasing:
after the whole sequence it is at most what it was before. -/
theorem best_cost_monotone (s : CobylaState)
    (calls : List (List ℚ × List ℚ)) :
    bestObjW (calls.foldl (fun st pc => st.update pc.1 pc.2) s) ≤ bestObjW s := by
  induction calls generalizing s with
  | nil => exact le_refl _
  | cons pc rest ih =>
    rw [List.foldl_cons]
    exact le_trans (ih (s.update pc.1 pc.2)) (bestObjW_update_le s pc.1 pc.2)

/-- C7: calling `finish` on an already-finished state fails deterministically
with the logic error, and never produces a successor state — so the status
attached earlier is never overwritten. -/
theorem finish_write_once (s : CobylaState) (t0 t : TermStatus)
    (h : s.status = some t0) :
    s.finish t = Except.error "already finished" ∧
    ∀ s' : CobylaState, s.finish t ≠ Except.ok s' := by
  unfold CobylaState.finish
  rw [h]
  exact ⟨rfl, fun s' hc => by simp at hc⟩

/-- C7 witness: on a concrete finished state, a second `finish` errors. -/
theorem finish_write_once_witness :
    ({ CobylaState.new [0] with
       status := some (Sum.inr SuccessStatus.Success) } : CobylaState).finish
      (Sum.inr SuccessStatus.FtolReached) = Except.error "already finished" :=
  (finish_write_once _ (Sum.inr SuccessStatus.Success)
    (Sum.inr SuccessStatus.FtolReached) rfl).1

/-- C8: with a best candidate already recorded, `update(params, cost)`
replaces best iff the candidate's objective (cost element 0) is strictly
lower than the best objective and every constraint component is nonnegative
within the slack; otherwise best parameters and cost are retained; and the
iteration counter increments by exactly one. -/
theorem update_best_replacement (s : CobylaState) (p c b : List ℚ)
    (h : s.best_cost = some b) :
    (s.update p c).iter = s.iter + 1 ∧
    ((c.getD 0 0 < b.getD 0 0 ∧ feasible c = true) →
      (s.update p c).best_cost = some c ∧ (s.update p c).best_param = p) ∧
    (¬ (c.getD 0 0 < b.getD 0 0 ∧ feasible c = true) →
      (s.update p c).best_cost = some b ∧
      (s.update p c).best_param = s.best_param) := by
  unfold CobylaState.update
  refine ⟨?_, ?_, ?_⟩
  · by_cases hc : (improves s.best_cost c && feasible c) = true <;>
      simp [hc]
  · rintro ⟨hlt, hf⟩
    have hcond : (improves s.best_cost c && feasible c) = true := by
      rw [h]
      exact (Bool.and_eq_true _ _).mpr ⟨decide_eq_true hlt, hf⟩
    simp [hcond]
  · intro hn
    have hcond : (improves s.best_cost c && feasible c) = false := by
      rw [h]
      by_cases hlt : c.getD 0 0 < b.getD 0 0
      · have hf : feasible c = false := by
          cases hfc : feasible c with
          | false => rfl
          | true => exact absurd ⟨hlt, hfc⟩ hn
        rw [hf, Bool.and_false]
      · rw [show improves (some b) c = false from decide_eq_false hlt,
          Bool.false_and]
    have hne : ¬ ((improves s.best_cost c && feasible c) = true) := by
      simp [hcond]
    rw [if_neg hne]
    exact ⟨h, rfl⟩

/-- C8 witness: a concrete improving feasible candidate replaces best and
bumps the iteration counter. -/
theorem update_best_replacement_witness :
    (({ CobylaState.new [0] with
        best_cost := some [(5 : ℚ)] } : CobylaState).update [1] [3, 0]).best_cost
      = some [(3 : ℚ), 0] ∧
    (({ CobylaState.new [0] with
        best_cost := some [(5 : ℚ)] } : CobylaState).update [1] [3, 0]).iter
      = ({ CobylaState.new [0] with
           best_cost := some [(5 : ℚ)] } : CobylaState).iter + 1 := by
  have H := update_best_replacement
    ({ CobylaState.new [0] with best_cost := some [(5 : ℚ)] }) [1] [3, 0]
    [(5 : ℚ)] rfl
  exact ⟨(H.2.1 ⟨by norm_num, by norm_num [feasible, cstr_eps]⟩).1, H.1⟩

/-- C5: the default `StopTols` disables everything — all scalar tolerances
are zero, `xtol_abs` is empty, and the tolerance-based stopping decision
never triggers for any function values or parameter vectors, so only the
iteration or time budget can stop a default-configured run. -/
theorem stoptols_default_disabled :
    StopTols.default.ftol_rel = 0 ∧ StopTols.default.ftol_abs = 0 ∧
    StopTols.default.xtol_rel = 0 ∧ StopTols.default.xtol_abs = [] ∧
    ∀ fprev fnew xprev xnew,
      tolTriggered StopTols.default fprev fnew xprev xnew = false := by
  refine ⟨rfl, rfl, rfl, rfl, fun fprev fnew xprev xnew => ?_⟩
  norm_num [tolTriggered, StopTols.default]

/-- C4: when the `RhoBeg::Set` vector or a set (non-empty) `xtol_abs` vector
does not match the initial parameter dimension, `solve_step` reports
`FailStatus::InvalidArgs` with zero callback invocations, for every external
engine — the engine (and hence the callback) is never consulted and the
input is never truncated or padded. -/
theorem invalid_dims_reported (engine : ExternEngine) (f : List ℚ → List ℚ)
    (st : CobylaState) (rb : RhoBeg) (tols : StopTols)
    (h : (∃ v, rb = RhoBeg.Set v ∧ v.length ≠ st.param.length) ∨
         (tols.xtol_abs ≠ [] ∧ tols.xtol_abs.length ≠ st.param.length)) :
    solve_step engine f st rb tols = (Except.error FailStatus.InvalidArgs, 0) := by
  have hguard :
      (rhoBegOk st.param.length rb && xtolAbsOk st.param.length tols) = false := by
    rcases h with ⟨v, hv, hlen⟩ | ⟨hne, hlen⟩
    · subst hv
      have hr : rhoBegOk st.param.length (RhoBeg.Set v) = false := by
        simp [rhoBegOk, hlen]
      rw [hr, Bool.false_and]
    · have hie : tols.xtol_abs.isEmpty = false := by
        cases hxa : tols.xtol_abs with
        | nil => exact absurd hxa hne
        | cons a l => rfl
      have hbe : (tols.xtol_abs.length == st.param.length) = false :=
        beq_eq_false_iff_ne.mpr hlen
      have hx : xtolAbsOk st.param.length tols = false := by
        rw [xtolAbsOk, hie, hbe]
        rfl
      rw [hx, Bool.and_false]
  simp only [solve_step]
  rw [if_neg (by simp [hguard])]

/-- C4 witness: initial parameters of length 2 against an `xtol_abs` of
length 3 yield `InvalidArgs` and zero evaluations, even for an engine that
would report seven callback invocations. -/
theorem invalid_dims_reported_witness :
    solve_step (fun _ _ _ _ => ⟨[], [], 0, 7, []⟩) id (CobylaState.new [1, 1])
      (RhoBeg.All 1)
      { ftol_rel := 0, ftol_abs := 0, xtol_rel := 0, xtol_abs := [1, 1, 1] } =
      (Except.error FailStatus.InvalidArgs, 0) :=
  invalid_dims_reported _ _ _ _ _
    (Or.inr ⟨by simp, by simp [CobylaState.new]⟩)

/-- C6: `RhoBeg::All(v)` and `RhoBeg::Set(vec![v; n])` (with `n` the
parameter dimension) are equivalent: `solve_step` returns the same result,
and the external engine — hence the whole evaluation trajectory it reports —
receives identical inputs under both configurations. -/
theorem rhobeg_all_set_equiv (engine : ExternEngine) (f : List ℚ → List ℚ)
    (st : CobylaState) (tols : StopTols) (v : ℚ) :
    solve_step engine f st (RhoBeg.All v) tols =
      solve_step engine f st (RhoBeg.Set (List.replicate st.param.length v)) tols ∧
    engine f st.param (rhoBegVec st.param.length (RhoBeg.All v)) tols =
      engine f st.param
        (rhoBegVec st.param.length
          (RhoBeg.Set (List.replicate st.param.length v))) tols := by
  constructor
  · simp [solve_step, rhoBegOk, rhoBegVec, List.length_replicate]
  · rfl

/-- C9: status translation is a total function — every raw code maps to
exactly one taxonomy member, and every code outside the recognized table maps
to `FailStatus::UnexpectedError` instead of failing. -/
theorem statusFromCode_total :
    (∀ c : ℤ, ∃! t : TermStatus, statusFromCode c = t) ∧
    ∀ c : ℤ, c ∉ knownCodes →
      statusFromCode c = Sum.inl FailStatus.UnexpectedError := by
  constructor
  · exact fun c => ⟨statusFromCode c, rfl, fun t ht => ht.symm⟩
  · intro c hc
    simp only [knownCodes, List.mem_cons, List.not_mem_nil, or_false,
      not_or] at hc
    obtain ⟨h1, h2, h3, h4, h5, h6, h7, h8, h9, h10, h11⟩ := hc
    simp [statusFromCode, h1, h2, h3, h4, h5, h6, h7, h8, h9, h10, h11]

/-- C9 witness: the unrecognized raw code 999 maps to `UnexpectedError`. -/
theorem statusFromCode_total_witness :
    (999 : ℤ) ∉ knownCodes ∧
    statusFromCode 999 = Sum.inl FailStatus.UnexpectedError :=
  ⟨by decide, statusFromCode_total.2 999 (by decide)⟩

/-- C10: for every parameter vector with at least two elements, the
paraboloid problem's cost function deterministically returns `Ok` with the
two-element cost vector `[10*(x[0]+1)^2 + x[1]^2, x[0]]` — objective first,
then the constraint value `x[0]` — and never an error. -/
theorem paraboloid_cost_ok (p : ParaboloidProblem) (x : List ℚ)
    (h : 2 ≤ x.length) :
    p.cost x = Except.ok
      [10 * (x.get ⟨0, by omega⟩ + 1) ^ 2 + x.get ⟨1, by omega⟩ ^ 2,
       x.get ⟨0, by omega⟩] := by
  have h0 : (0 : ℕ) < x.length := by omega
  have h1 : (1 : ℕ) < x.length := by omega
  have e0 : x.getD 0 0 = x.get ⟨0, h0⟩ := List.getD_eq_get x 0 h0
  have e1 : x.getD 1 0 = x.get ⟨1, h1⟩ := List.getD_eq_get x 0 h1
  rw [ParaboloidProblem.cost, paraboloid, e0, e1]

/-- C10 witness: at `x = [1, 1]` the cost is `Ok([41, 1])`. -/
theorem paraboloid_cost_ok_witness :
    ParaboloidProblem.cost ⟨⟩ [1, 1] = Except.ok [(41 : ℚ), 1] := by
  rw [paraboloid_cost_ok ⟨⟩ [1, 1] (by norm_num)]
  norm_num
